import Mathlib

/-!
Shallow embedding of the acquisition pipeline of `daqflex/devices.py`
(class `MCCDevice`): the synchronous bulk reader `read_scan_data`, the
drop-oldest continuous-mode buffer (`collections.deque(maxlen=...)`),
the calibration query and cache (`get_calib_data` plus the memoisation
block of `simple_read`), the scan configurator `configure_read`, the
voltage scaling `scale_and_calibrate_data`, and the deinterleaving and
bounded-retry logic of `simple_read`.

Device I/O is made explicit: bulk-endpoint reads become a list of
`ReadEvent`s, the control channel becomes an oracle function, and the
per-session mutable fields (`conf`, `calib_data`,
`read_recursion_depth`) become explicitly threaded state.
-/

namespace PyDAQFlex

/-- One outcome of a single `self._ep_in.read(...)` call inside
`read_scan_data`: a packet of decoded 16-bit samples, a USB timeout
(`errno.ETIMEDOUT`), or any other USB fault. -/
inductive ReadEvent where
  | packet (samples : List ℕ)
  | timeout
  | fault
deriving DecidableEq

/-- Result of the `read_scan_data` loop: a normal return with the
accumulated samples, a raised exception, or `pending` when the modelled
event prefix ends before the loop terminates. -/
inductive ScanResult where
  | returned (data : List ℕ)
  | raised
  | pending (data : List ℕ)
deriving DecidableEq

/-- The `while True` loop of `MCCDevice.read_scan_data`: read a packet;
a non-timeout `USBError` is re-raised; a timeout or an empty packet
breaks the loop; otherwise the packet is appended to `data` and the
loop breaks once `len(data) >= length`. -/
def read_scan_loop (length : ℕ) (acc : List ℕ) : List ReadEvent → ScanResult
  | [] => .pending acc
  | .fault :: _ => .raised
  | .timeout :: _ => .returned acc
  | .packet p :: rest =>
    if p = [] then .returned acc
    else
      if length ≤ (acc ++ p).length then .returned (acc ++ p)
      else read_scan_loop length (acc ++ p) rest

/-- `MCCDevice.read_scan_data(length, rate)`, with the successive bulk
read outcomes supplied as `events`; `data` starts empty. -/
def read_scan_data (length : ℕ) (events : List ReadEvent) : ScanResult :=
  read_scan_loop length [] events

/-- One `append` on a Python `collections.deque(maxlen=maxlen)`: the new
element is admitted and, when the deque is over capacity, the oldest
(leftmost) element is discarded. -/
def deque_append (maxlen : ℕ) (buf : List α) (x : α) : List α :=
  (buf ++ [x]).drop ((buf ++ [x]).length - maxlen)

/-- The sequence of packet appends performed by the continuous-transfer
poller into `self.data_buffer = collections.deque(maxlen=buf_size)`,
starting from the fresh empty deque. -/
def deque_fill (maxlen : ℕ) (packets : List α) : List α :=
  packets.foldl (deque_append maxlen) []

/-- The slope query string `"?AI{{{0}}}:SLOPE".format(channel)` sent by
`get_calib_data`. -/
def slope_query (channel : ℕ) : String :=
  "?AI\x7b" ++ toString channel ++ "\x7d:SLOPE"

/-- The offset query string `"?AI{{{0}}}:OFFSET".format(channel)` sent by
`get_calib_data`. -/
def offset_query (channel : ℕ) : String :=
  "?AI\x7b" ++ toString channel ++ "\x7d:OFFSET"

/-- Python's `resp.split('=')`: the decoded response split at every
`=` character (always at least one piece). -/
def split_eq : List Char → List (List Char)
  | [] => [[]]
  | c :: cs =>
    if c = '=' then [] :: split_eq cs
    else
      match split_eq cs with
      | [] => [[c]]
      | p :: ps => (c :: p) :: ps

/-- The expression `float(resp.split('=')[1])` of `get_calib_data`.
`none` models an uncaught exception: the `IndexError` when the response
holds no `=` (so the split yields a single piece), or the `ValueError`
when the suffix is not a float literal. Python's builtin `float` is
external to the repository, so its acceptance of literals is the
oracle `pyfloat`. -/
def parse_value (pyfloat : String → Option ℚ) (resp : String) : Option ℚ :=
  match (split_eq resp.data).get? 1 with
  | none => none
  | some s => pyfloat (String.mk s)

/-- `MCCDevice.get_calib_data(channel)` with the control channel as an
oracle `respond`: issues the slope query and parses the response; only
when that succeeds issues the offset query and parses it. Returns
`none` (the propagated IndexError/ValueError) when either parse fails,
together with the commands actually sent before the exception. -/
def get_calib_data (respond : String → String) (pyfloat : String → Option ℚ)
    (channel : ℕ) : Option (ℚ × ℚ) × List String :=
  match parse_value pyfloat (respond (slope_query channel)) with
  | none => (none, [slope_query channel])
  | some slope =>
    match parse_value pyfloat (respond (offset_query channel)) with
    | none => (none, [slope_query channel, offset_query channel])
    | some offset =>
      (some (slope, offset), [slope_query channel, offset_query channel])

/-- Key of `self.calib_data`: `(channel, mode, vrange_code)`. -/
abbrev CalKey := ℕ × String × String

/-- The memoisation block of `simple_read`
(`if not (key in self.calib_data): self.calib_data[key] = self.get_calib_data(chan)`):
on a hit, the cached pair with no commands sent; on a miss,
`get_calib_data` runs, and its exception, if any, propagates with the
cache unchanged — the pair is stored only on success. Returns the
pair (or `none` for the exception), the cache after the call, and the
commands sent. -/
def calib_lookup (respond : String → String) (pyfloat : String → Option ℚ)
    (cache : List (CalKey × (ℚ × ℚ))) (key : CalKey) :
    Option (ℚ × ℚ) × List (CalKey × (ℚ × ℚ)) × List String :=
  match cache.lookup key with
  | some v => (some v, cache, [])
  | none =>
    match get_calib_data respond pyfloat key.1 with
    | (none, sent) => (none, cache, sent)
    | (some v, sent) => (some v, cache ++ [(key, v)], sent)

/-- The tuple `new_conf = (mode, vrange, lowchan, highchan, frequency, nsamples)`
built by `configure_read`; compared by value against `self.conf`. -/
structure ScanConf where
  mode : String
  vrange : ℤ
  lowchan : ℤ
  highchan : ℤ
  frequency : ℤ
  nsamples : ℤ
deriving DecidableEq

/-- `vrange_code = "BIP%dV" % (vrange)`. -/
def vrange_code (v : ℤ) : String := "BIP" ++ toString v ++ "V"

/-- The six `send_message` payloads of `configure_read`, in program
order: channel mode, range, low channel, high channel, rate, samples. -/
def scan_commands (c : ScanConf) : List String :=
  ["AI:CHMODE=" ++ c.mode,
   "AISCAN:RANGE=" ++ vrange_code c.vrange,
   "AISCAN:LOWCHAN=" ++ toString c.lowchan,
   "AISCAN:HIGHCHAN=" ++ toString c.highchan,
   "AISCAN:RATE=" ++ toString c.frequency,
   "AISCAN:SAMPLES=" ++ toString c.nsamples]

/-- Send a list of commands in order through `send_message`, whose
success is decided by the oracle `ok`; stops at the first failing
command. Returns the commands actually attempted and the failing
command, if any (an `IOError` raised by `send_message`). -/
def run_cmds (ok : String → Bool) : List String → List String × Option String
  | [] => ([], none)
  | m :: ms =>
    if ok m then
      let r := run_cmds ok ms
      (m :: r.1, r.2)
    else ([m], some m)

/-- `MCCDevice.configure_read`: if the new tuple equals `self.conf` it
returns at once without sending anything; otherwise it sends the six
scan commands in order and only then assigns `self.conf = new_conf`.
An exception from any `send_message` propagates before that assignment,
leaving `conf` unchanged. Result: (conf after the call, commands
attempted, exception raised if any). -/
def configure_read (ok : String → Bool) (conf : Option ScanConf) (c : ScanConf) :
    Option ScanConf × List String × Option String :=
  if some c = conf then (conf, [], none)
  else
    let r := run_cmds ok (scan_commands c)
    match r.2 with
    | some m => (conf, r.1, some m)
    | none => (some c, r.1, none)

/-- `MCCDevice.scale_and_calibrate_data(data, min_voltage, max_voltage,
calib)` with `calib = (slope, offset)` and the class constant
`max_counts` passed explicitly; floats are modelled as rationals. -/
def scale_and_calibrate_data (max_counts data min_voltage max_voltage slope offset : ℚ) : ℚ :=
  let full_scale := max_voltage - min_voltage
  let cal_data := data * slope + offset
  (cal_data / max_counts) * full_scale + min_voltage

/-- The Python slice `l[start::step]` (for `step ≥ 1`): the elements at
indices `start, start + step, start + 2*step, ...`. -/
def pySlice (l : List α) (start step : ℕ) : List α :=
  (((l.drop start).enum.filter (fun p => p.1 % step = 0)).map Prod.snd)

/-- Return shape of `simple_read`: the dictionary of per-channel arrays,
or the bare single array when `len(out) == 1`. -/
inductive SimpleReadOut where
  | single (xs : List ℕ)
  | multi (m : List (ℕ × List ℕ))
deriving DecidableEq

/-- The deinterleaving tail of `MCCDevice.simple_read` (the `scale=False`
path): `nchannels = 1 + highchan - lowchan`; for each `chan` in
`range(lowchan, max(lowchan + 1, highchan))` set
`out[chan] = data[chan::nchannels]`; finally collapse `out` to its sole
value when it has exactly one key. -/
def simple_read_out (raw : List ℕ) (lowchan highchan : ℕ) : SimpleReadOut :=
  let nchannels := 1 + highchan - lowchan
  let chans := List.range' lowchan (max (lowchan + 1) highchan - lowchan)
  let out := chans.map (fun chan => (chan, pySlice raw chan nchannels))
  match out with
  | [x] => .single x.2
  | l => .multi l

/-- The retry ladder of `simple_read`: each element of `attempts` is the
raw buffer produced by one full configure/start/read/stop attempt. A
buffer of the requested length is accepted; a short buffer triggers a
recursive retry while `read_recursion_depth < 10`, and is accepted
as-is once the depth reaches 10. Returns `(number of attempts
performed, buffer finally returned)`, or `none` when the modelled
attempt list is exhausted first. -/
def retry_loop (nsamples depth : ℕ) : List (List ℕ) → Option (ℕ × List ℕ)
  | [] => none
  | raw :: rest =>
    if raw.length = nsamples then some (1, raw)
    else if depth < 10 then
      match retry_loop nsamples (depth + 1) rest with
      | some (n, r) => some (n + 1, r)
      | none => none
    else some (1, raw)

/-- The retry behaviour of `simple_read` starting from the session's
initial `read_recursion_depth = 0`. -/
def simple_read_retry (nsamples : ℕ) (attempts : List (List ℕ)) :
    Option (ℕ × List ℕ) :=
  retry_loop nsamples 0 attempts

/-! Theorems -/

/-- Claim C1: for the `scale=False` one-shot read over channels 0..1 with
raw samples `[10,20,30,40]`, the code does not return the mapping
`{0:[10,30], 1:[20,40]}`: the channel loop `range(lowchan,
max(lowchan + 1, highchan))` stops before the high channel, so only
channel 0 is extracted and the one-entry dict is collapsed to the bare
array `[10,30]`. -/
theorem simple_read_drops_high_channel :
    simple_read_out [10, 20, 30, 40] 0 1 = SimpleReadOut.single [10, 30] ∧
    SimpleReadOut.single [10, 30] ≠
      SimpleReadOut.multi [(0, [10, 30]), (1, [20, 40])] := by
  constructor
  · rfl
  · decide

/-- Claim C2: for the flat 2-channel scan `[1,2,3,4,5,6]` over channels
0..1, the code produces only `highchan - lowchan = 1` per-channel
sequence (channel 0's `[1,3,5]`), not the `1 + highchan - lowchan = 2`
sequences the claim requires: channel 1's `[2,4,6]` is never extracted
and the result collapses to a single bare sequence although two
channels were scanned. -/
theorem simple_read_two_channel_split :
    simple_read_out [1, 2, 3, 4, 5, 6] 0 1 = SimpleReadOut.single [1, 3, 5] ∧
    ∀ m, simple_read_out [1, 2, 3, 4, 5, 6] 0 1 ≠ SimpleReadOut.multi m := by
  constructor
  · rfl
  · intro m h
    rw [show simple_read_out [1, 2, 3, 4, 5, 6] 0 1 =
      SimpleReadOut.single [1, 3, 5] from rfl] at h
    exact SimpleReadOut.noConfusion h

/-- Claim C4 (counterexample): with slope=1, offset=0, max_voltage=1,
min_voltage=−1 and maxCounts=1, the input 0 is mapped to −1, not to
itself, so the claimed round-trip identity fails. -/
theorem scale_round_trip_counterexample :
    scale_and_calibrate_data 1 0 (-1) 1 1 0 = -1 ∧
    scale_and_calibrate_data 1 0 (-1) 1 1 0 ≠ 0 := by
  constructor <;> norm_num [scale_and_calibrate_data]

/-- Claim C4 (amended): `scale_and_calibrate_data` is affine in its data
argument (it preserves affine combinations `t*d₁ + (1-t)*d₂`), and with
slope=1, offset=0, max_voltage=1, min_voltage=−1 and maxCounts=1 the
output is `2*data − 1` for every input. -/
theorem scale_affine_round_trip :
    (∀ d : ℚ, scale_and_calibrate_data 1 d (-1) 1 1 0 = 2 * d - 1) ∧
    (∀ mc d₁ d₂ t mn mx s o : ℚ,
      scale_and_calibrate_data mc (t * d₁ + (1 - t) * d₂) mn mx s o =
        t * scale_and_calibrate_data mc d₁ mn mx s o +
          (1 - t) * scale_and_calibrate_data mc d₂ mn mx s o) := by
  constructor
  · intro d
    simp only [scale_and_calibrate_data]
    ring
  · intro mc d₁ d₂ t mn mx s o
    simp only [scale_and_calibrate_data]
    ring

/-- Helper: on an all-short attempt stream, `retry_loop` starting at
recursion depth `depth ≤ 10` performs `11 - depth` attempts and returns
the buffer of the last one. -/
theorem retry_loop_all_short (nsamples : ℕ) :
    ∀ (atts : List (List ℕ)) (depth : ℕ), depth ≤ 10 →
      (∀ a ∈ atts, a.length ≠ nsamples) → 11 - depth ≤ atts.length →
      retry_loop nsamples depth atts = some (11 - depth, atts.getD (10 - depth) []) := by
  intro atts
  induction atts with
  | nil =>
    intro depth hd _ hlen
    simp at hlen
    omega
  | cons a rest ih =>
    intro depth hd hshort hlen
    have ha : a.length ≠ nsamples := hshort a (by simp)
    have hlen' : 11 - depth ≤ rest.length + 1 := by simpa using hlen
    by_cases hdepth : depth < 10
    · have hshort' : ∀ x ∈ rest, x.length ≠ nsamples := fun x hx => hshort x (by simp [hx])
      have hlen2 : 11 - (depth + 1) ≤ rest.length := by omega
      have hrec := ih (depth + 1) (by omega) hshort' hlen2
      have h10 : 10 - depth = (10 - (depth + 1)) + 1 := by omega
      simp only [retry_loop, if_neg ha, if_pos hdepth, hrec]
      rw [h10]
      simp only [List.getD_cons_succ]
      have harith : 11 - (depth + 1) + 1 = 11 - depth := by omega
      rw [harith]
    · have hd10 : depth = 10 := by omega
      subst hd10
      simp [retry_loop, ha]

/-- Claim C3 (counterexample): on a stream of persistently short reads
(11 attempts available, each of length 1 against a request of 4),
`simple_read` performs 11 attempts — the initial attempt plus 10
retries — not the 10 the claim states. -/
theorem retry_ten_attempts_counterexample :
    simple_read_retry 4 (List.replicate 11 [0]) = some (11, [0]) ∧ (11 : ℕ) ≠ 10 := by
  constructor
  · rfl
  · decide

/-- Claim C3 (amended): if every attempt of the one-shot read yields a
raw length different from the requested `nsamples`, `simple_read`
performs exactly 11 attempts in total (the initial attempt plus 10
retries), then returns the data of the last attempt without raising. -/
theorem retry_persistent_short_read (nsamples : ℕ) (atts : List (List ℕ))
    (hshort : ∀ a ∈ atts, a.length ≠ nsamples) (hlen : 11 ≤ atts.length) :
    simple_read_retry nsamples atts = some (11, atts.getD 10 []) := by
  have h := retry_loop_all_short nsamples atts 0 (by omega) hshort (by omega)
  simpa [simple_read_retry] using h

/-- Witness for the amended claim C3 at a concrete all-short stream. -/
theorem retry_persistent_short_read_witness :
    simple_read_retry 4 (List.replicate 11 [9]) = some (11, [9]) := by
  have h := retry_persistent_short_read 4 (List.replicate 11 [9]) (by decide) (by decide)
  have h2 : (List.replicate 11 ([9] : List ℕ)).getD 10 [] = [9] := rfl
  rw [h2] at h
  exact h

/-- Helper: folding `deque_append` over `ps` from a buffer within
capacity keeps the last `N` elements of `buf ++ ps`. -/
theorem deque_foldl (N : ℕ) {α : Type} :
    ∀ (ps : List α) (buf : List α), buf.length ≤ N →
      ps.foldl (deque_append N) buf = (buf ++ ps).drop ((buf ++ ps).length - N) := by
  intro ps
  induction ps with
  | nil =>
    intro buf hbuf
    simp only [List.foldl_nil, List.append_nil]
    rw [show buf.length - N = 0 by omega]
    simp
  | cons p ps ih =>
    intro buf hbuf
    have hlen : (deque_append N buf p).length = (buf.length + 1) - ((buf.length + 1) - N) := by
      simp [deque_append]
    have hcap : (deque_append N buf p).length ≤ N := by omega
    rw [List.foldl_cons, ih (deque_append N buf p) hcap]
    have hsplit : deque_append N buf p ++ ps =
        ((buf ++ [p]) ++ ps).drop ((buf ++ [p]).length - N) := by
      rw [List.drop_append_eq_append_drop]
      simp [deque_append]
    have hl : buf ++ p :: ps = (buf ++ [p]) ++ ps := by simp
    rw [hsplit, List.drop_drop, hl]
    congr 1
    simp only [List.length_drop, List.length_append, List.length_cons,
      List.length_singleton, List.length_nil]
    omega

/-- Claim C8: the continuous-mode buffer `collections.deque(maxlen=N)`
holds at most `N` packets at all times, and after any sequence of
appends it holds exactly the `N` most recently appended packets in
oldest-first order (drop-oldest eviction). -/
theorem stream_buffer_drop_oldest (N : ℕ) (ps : List (List ℕ)) :
    deque_fill N ps = ps.drop (ps.length - N) ∧ (deque_fill N ps).length ≤ N := by
  have h : deque_fill N ps = ps.drop (ps.length - N) := by
    have h0 := deque_foldl N ps [] (by simp)
    simpa [deque_fill] using h0
  refine ⟨h, ?_⟩
  rw [h, List.length_drop]
  omega

/-- Helper: when every command succeeds, `run_cmds` sends the whole list
and raises nothing. -/
theorem run_cmds_all_ok (ok : String → Bool) (hok : ∀ m, ok m = true) :
    ∀ l : List String, run_cmds ok l = (l, none) := by
  intro l
  induction l with
  | nil => rfl
  | cons m ms ih => simp [run_cmds, hok m, ih]

/-- Helper: `run_cmds` on a nonempty command list attempts at least one
command. -/
theorem run_cmds_ne_nil (ok : String → Bool) (l : List String) (hl : l ≠ []) :
    (run_cmds ok l).1 ≠ [] := by
  cases l with
  | nil => exact absurd rfl hl
  | cons m ms =>
    by_cases h : ok m = true <;> simp [run_cmds, h]

/-- Claim C5: when the new configuration differs from the recorded one,
`configure_read` sends exactly the channel-mode, range, low-channel,
high-channel, rate and sample-count commands in that order and records
the configuration; a second call with the same configuration sends no
commands at all. -/
theorem configure_read_idempotent (ok : String → Bool) (st : Option ScanConf)
    (c : ScanConf) (hne : some c ≠ st) (hok : ∀ m, ok m = true) :
    configure_read ok st c = (some c, scan_commands c, none) ∧
    configure_read ok (some c) c = (some c, [], none) := by
  constructor
  · simp [configure_read, if_neg hne, run_cmds_all_ok ok hok]
  · simp [configure_read]

/-- Witness for claim C5 at a concrete session state and configuration. -/
theorem configure_read_idempotent_witness :
    configure_read (fun _ => true) none ⟨"SE", 10, 0, 0, 1000, 1024⟩ =
      (some ⟨"SE", 10, 0, 0, 1000, 1024⟩,
       ["AI:CHMODE=SE", "AISCAN:RANGE=BIP10V", "AISCAN:LOWCHAN=0",
        "AISCAN:HIGHCHAN=0", "AISCAN:RATE=1000", "AISCAN:SAMPLES=1024"],
       none) ∧
    configure_read (fun _ => true) (some ⟨"SE", 10, 0, 0, 1000, 1024⟩)
        ⟨"SE", 10, 0, 0, 1000, 1024⟩ =
      (some ⟨"SE", 10, 0, 0, 1000, 1024⟩, [], none) := by
  have h := configure_read_idempotent (fun _ => true) none
    ⟨"SE", 10, 0, 0, 1000, 1024⟩ (by simp) (fun m => rfl)
  exact ⟨h.1.trans (by rfl), h.2⟩

/-- Claim C6: if one of the commands issued by `configure_read` raises,
the exception propagates and the recorded configuration is unchanged,
so a subsequent call with the same configuration is not skipped as
already applied — it attempts commands again. -/
theorem configure_read_error_atomic (ok ok2 : String → Bool) (st : Option ScanConf)
    (c : ScanConf) (e : String)
    (herr : (configure_read ok st c).2.2 = some e) :
    (configure_read ok st c).1 = st ∧ (configure_read ok2 st c).2.1 ≠ [] := by
  by_cases hc : some c = st
  · exfalso
    simp [configure_read, hc] at herr
  · constructor
    · simp only [configure_read, if_neg hc] at herr ⊢
      cases hr : (run_cmds ok (scan_commands c)).2 with
      | none => rw [hr] at herr; simp at herr
      | some m => rfl
    · simp only [configure_read, if_neg hc]
      cases hr : (run_cmds ok2 (scan_commands c)).2 with
      | none => exact run_cmds_ne_nil ok2 (scan_commands c) (by simp [scan_commands])
      | some m => exact run_cmds_ne_nil ok2 (scan_commands c) (by simp [scan_commands])

/-- Witness for claim C6: a session whose control channel rejects every
command keeps `conf = none`, and the retry attempts commands. -/
theorem configure_read_error_atomic_witness :
    (configure_read (fun _ => false) none ⟨"SE", 10, 0, 0, 1000, 1024⟩).1 = none ∧
    (configure_read (fun _ => true) none ⟨"SE", 10, 0, 0, 1000, 1024⟩).2.1 ≠ [] :=
  configure_read_error_atomic (fun _ => false) (fun _ => true) none
    ⟨"SE", 10, 0, 0, 1000, 1024⟩ "AI:CHMODE=SE" (by rfl)

/-- Helper: the number of samples a `ReadEvent` carries. -/
def packet_len : ReadEvent → ℕ
  | .packet p => p.length
  | .timeout => 0
  | .fault => 0

/-- Helper: pushing a prefix of nonempty packets whose total stays below
the requested length just accumulates them. -/
theorem read_scan_loop_packets (length : ℕ) (tail : List ReadEvent) :
    ∀ (ps : List (List ℕ)) (acc : List ℕ), (∀ p ∈ ps, p ≠ []) →
      acc.length + ps.flatten.length < length →
      read_scan_loop length acc (ps.map ReadEvent.packet ++ tail) =
        read_scan_loop length (acc ++ ps.flatten) tail := by
  intro ps
  induction ps with
  | nil =>
    intro acc _ _
    simp
  | cons p ps ih =>
    intro acc hne hlen
    have hp : p ≠ [] := hne p (by simp)
    have hlen' : (acc ++ p).length + ps.flatten.length < length := by
      simp only [List.length_append]
      simp only [List.flatten_cons, List.length_append] at hlen
      omega
    have hnotfull : ¬ length ≤ (acc ++ p).length := by
      simp only [List.length_append] at hlen' ⊢
      omega
    simp only [List.map_cons, List.cons_append, read_scan_loop, if_neg hp,
      if_neg hnotfull, List.append_eq]
    rw [ih (acc ++ p) (fun x hx => hne x (by simp [hx])) hlen']
    simp [List.flatten_cons]

/-- Claim C7: as long as every packet read so far was nonempty and kept
the accumulated count below the requested length, `read_scan_data`
returns the accumulated samples — without raising — as soon as a read
times out or yields zero bytes, while a non-timeout USB fault
propagates as an exception. -/
theorem read_scan_timeout_returns (length : ℕ) (ps : List (List ℕ))
    (rest : List ReadEvent) (hne : ∀ p ∈ ps, p ≠ [])
    (hlen : ps.flatten.length < length) :
    read_scan_data length (ps.map ReadEvent.packet ++ ReadEvent.timeout :: rest) =
      ScanResult.returned ps.flatten ∧
    read_scan_data length (ps.map ReadEvent.packet ++ ReadEvent.packet [] :: rest) =
      ScanResult.returned ps.flatten ∧
    read_scan_data length (ps.map ReadEvent.packet ++ ReadEvent.fault :: rest) =
      ScanResult.raised := by
  have h0 : ([] : List ℕ).length + ps.flatten.length < length := by simpa using hlen
  unfold read_scan_data
  refine ⟨?_, ?_, ?_⟩ <;>
    rw [read_scan_loop_packets length _ ps [] hne h0] <;>
    simp [read_scan_loop]

/-- Witness for claim C7: two one-sample packets, then each of the three
stream terminators, against a request of five samples. -/
theorem read_scan_timeout_returns_witness :
    read_scan_data 5 [ReadEvent.packet [1], ReadEvent.packet [2],
        ReadEvent.timeout] = ScanResult.returned [1, 2] ∧
    read_scan_data 5 [ReadEvent.packet [1], ReadEvent.packet [2],
        ReadEvent.packet []] = ScanResult.returned [1, 2] ∧
    read_scan_data 5 [ReadEvent.packet [1], ReadEvent.packet [2],
        ReadEvent.fault] = ScanResult.raised := by
  have h := read_scan_timeout_returns 5 [[1], [2]] [] (by decide) (by decide)
  have hj : ([[1], [2]] : List (List ℕ)).flatten = [1, 2] := rfl
  rw [hj] at h
  exact h

/-- Helper: any data returned by the `read_scan_data` loop is shorter
than the requested length plus one packet, provided the accumulator is
still short and every packet carries at most `P` samples. -/
theorem read_scan_loop_length_bound (length P : ℕ) :
    ∀ (events : List ReadEvent) (acc d : List ℕ), acc.length < length →
      (∀ e ∈ events, packet_len e ≤ P) →
      read_scan_loop length acc events = ScanResult.returned d →
      d.length < length + P := by
  intro events
  induction events with
  | nil =>
    intro acc d _ _ h
    simp [read_scan_loop] at h
  | cons e rest ih =>
    intro acc d hacc hbound h
    cases e with
    | fault => simp [read_scan_loop] at h
    | timeout =>
      simp only [read_scan_loop, ScanResult.returned.injEq] at h
      subst h
      omega
    | packet p =>
      by_cases hp : p = []
      · simp only [read_scan_loop, if_pos hp, ScanResult.returned.injEq] at h
        subst h
        omega
      · have hP : p.length ≤ P := by
          have := hbound (ReadEvent.packet p) (by simp)
          simpa [packet_len] using this
        by_cases hfull : length ≤ (acc ++ p).length
        · simp only [read_scan_loop, if_neg hp, if_pos hfull,
            ScanResult.returned.injEq] at h
          subst h
          simp only [List.length_append]
          omega
        · simp only [read_scan_loop, if_neg hp, if_neg hfull] at h
          have hacc' : (acc ++ p).length < length := by
            simpa using hfull
          exact ih (acc ++ p) d hacc'
            (fun x hx => hbound x (by simp [hx])) h

/-- Claim C10: `read_scan_data` can return strictly more samples than
requested — a whole packet is appended before the count is checked —
and the excess is bounded by one packet: under a packet-size bound `P`
the returned length stays below `length + P`. -/
theorem read_scan_overshoot :
    (read_scan_data 1 [ReadEvent.packet [5, 6]] = ScanResult.returned [5, 6] ∧
      1 < List.length [5, 6]) ∧
    (∀ (length P : ℕ) (events : List ReadEvent) (d : List ℕ),
      1 ≤ length → (∀ e ∈ events, packet_len e ≤ P) →
      read_scan_data length events = ScanResult.returned d →
      d.length < length + P) := by
  constructor
  · exact ⟨rfl, by decide⟩
  · intro length P events d hlen hbound h
    exact read_scan_loop_length_bound length P events [] d (by simpa using hlen)
      hbound h

/-- Witness for claim C10's bound at a concrete overshooting stream. -/
theorem read_scan_overshoot_witness :
    read_scan_data 2 [ReadEvent.packet [1, 2, 3]] = ScanResult.returned [1, 2, 3] ∧
    List.length [1, 2, 3] < 2 + 3 := by
  refine ⟨rfl, ?_⟩
  exact read_scan_overshoot.2 2 3 [ReadEvent.packet [1, 2, 3]] [1, 2, 3]
    (by decide) (by decide) rfl

/-- Helper: a lookup that misses the first part of an appended
association list falls through to the second part. -/
theorem lookup_append {β : Type} (l₁ l₂ : List (CalKey × β)) (k : CalKey)
    (h : l₁.lookup k = none) : (l₁ ++ l₂).lookup k = l₂.lookup k := by
  induction l₁ with
  | nil => simp
  | cons x xs ih =>
    obtain ⟨k1, v1⟩ := x
    cases hkx : (k == k1) with
    | true => simp [List.lookup, hkx] at h
    | false =>
      simp only [List.lookup, hkx] at h
      simp only [List.cons_append, List.lookup, hkx]
      exact ih h

/-- Claim C9: when the device's answers to both calibration queries for
an uncached key parse as floats, the first lookup sends exactly the
slope query then the offset query and appends the parsed pair to the
cache, and a second lookup of the now-cached key sends no commands and
returns the stored pair with the cache unchanged. -/
theorem calib_cache_two_then_zero (respond : String → String)
    (pyfloat : String → Option ℚ) (cache : List (CalKey × (ℚ × ℚ)))
    (key : CalKey) (slope offset : ℚ)
    (hmiss : cache.lookup key = none)
    (hs : parse_value pyfloat (respond (slope_query key.1)) = some slope)
    (ho : parse_value pyfloat (respond (offset_query key.1)) = some offset) :
    calib_lookup respond pyfloat cache key =
      (some (slope, offset), cache ++ [(key, (slope, offset))],
       [slope_query key.1, offset_query key.1]) ∧
    calib_lookup respond pyfloat (cache ++ [(key, (slope, offset))]) key =
      (some (slope, offset), cache ++ [(key, (slope, offset))], []) := by
  have hget : get_calib_data respond pyfloat key.1 =
      (some (slope, offset), [slope_query key.1, offset_query key.1]) := by
    simp [get_calib_data, hs, ho]
  have hl : (cache ++ [(key, (slope, offset))]).lookup key =
      some (slope, offset) := by
    rw [lookup_append _ _ _ hmiss]
    simp [List.lookup]
  constructor
  · simp [calib_lookup, hmiss, hget]
  · simp [calib_lookup, hl]

/-- Witness for claim C9 at the empty session cache, key
`(0, SE, BIP10V)`, a device answering `CAL=1.5` to every query, and a
float parser accepting the literal `1.5`. -/
theorem calib_cache_two_then_zero_witness :
    calib_lookup (fun _ => "CAL=1.5")
        (fun s => if s = "1.5" then some 2 else none)
        [] (0, "SE", "BIP10V") =
      (some (2, 2), [((0, "SE", "BIP10V"), (2, 2))],
       ["?AI\x7b0\x7d:SLOPE", "?AI\x7b0\x7d:OFFSET"]) ∧
    calib_lookup (fun _ => "CAL=1.5")
        (fun s => if s = "1.5" then some 2 else none)
        [((0, "SE", "BIP10V"), (2, 2))] (0, "SE", "BIP10V") =
      (some (2, 2), [((0, "SE", "BIP10V"), (2, 2))], []) := by
  have h := calib_cache_two_then_zero (fun _ => "CAL=1.5")
    (fun s => if s = "1.5" then some 2 else none) [] (0, "SE", "BIP10V")
    2 2 rfl (by decide) (by decide)
  simpa using h

end PyDAQFlex
